import Mathlib

/-!
Verification of the crypto-data-pipeline core.

A shallow embedding of the repository's core logic:

* `src/indicators.py` — `TechnicalIndicators.calculate_ema`, `calculate_macd`,
  `calculate_rsi`, `calculate_bollinger_bands`, `add_all_indicators`;
* `src/data_collector.py` — `DataCollector.fetch_all_historical_data`,
  `DataCollector.validate_data`.

Floating-point series values are modelled exactly: a value is `nan`, `+inf`,
`-inf`, or a finite rational, with IEEE-style propagation in the arithmetic
operations the code exercises (in particular `0/0 = nan`, `x/0 = ±inf` for
`x ≠ 0`, comparisons with `nan` are `false`).  Timestamps are integers in
milliseconds since the epoch, as in the source after conversion.
-/

namespace CryptoPipeline

/-- A pandas/numpy float64 cell value, modelled exactly. -/
inductive Val where
  | nan  : Val
  | pinf : Val
  | ninf : Val
  | fin  : ℚ → Val
deriving DecidableEq, Repr

namespace Val

/-- IEEE negation. -/
def vneg : Val → Val
  | nan => nan
  | pinf => ninf
  | ninf => pinf
  | fin q => fin (-q)

/-- IEEE addition: `nan` propagates, `+inf + -inf = nan`. -/
def vadd : Val → Val → Val
  | nan, _ => nan
  | _, nan => nan
  | pinf, ninf => nan
  | ninf, pinf => nan
  | pinf, _ => pinf
  | _, pinf => pinf
  | ninf, _ => ninf
  | _, ninf => ninf
  | fin a, fin b => fin (a + b)

/-- IEEE subtraction. -/
def vsub (a b : Val) : Val := vadd a (vneg b)

/-- IEEE multiplication: `nan` propagates, `±inf · 0 = nan`. -/
def vmul : Val → Val → Val
  | nan, _ => nan
  | _, nan => nan
  | pinf, pinf => pinf
  | pinf, ninf => ninf
  | ninf, pinf => ninf
  | ninf, ninf => pinf
  | pinf, fin b => if b = 0 then nan else if 0 < b then pinf else ninf
  | fin a, pinf => if a = 0 then nan else if 0 < a then pinf else ninf
  | ninf, fin b => if b = 0 then nan else if 0 < b then ninf else pinf
  | fin a, ninf => if a = 0 then nan else if 0 < a then ninf else pinf
  | fin a, fin b => fin (a * b)

/-- IEEE division: `0/0 = nan`, `a/0 = ±inf` for finite `a ≠ 0`,
`a/±inf = 0` for finite `a`, `±inf/±inf = nan`. -/
def vdiv : Val → Val → Val
  | nan, _ => nan
  | _, nan => nan
  | pinf, pinf => nan
  | pinf, ninf => nan
  | ninf, pinf => nan
  | ninf, ninf => nan
  | pinf, fin b => if 0 ≤ b then pinf else ninf
  | ninf, fin b => if 0 ≤ b then ninf else pinf
  | fin _, pinf => fin 0
  | fin _, ninf => fin 0
  | fin a, fin b =>
      if b = 0 then (if a = 0 then nan else if 0 < a then pinf else ninf)
      else fin (a / b)

/-- IEEE `<`: any comparison involving `nan` is `false`. -/
def vlt : Val → Val → Bool
  | nan, _ => false
  | _, nan => false
  | pinf, _ => false
  | _, pinf => true
  | ninf, ninf => false
  | ninf, _ => true
  | _, ninf => false
  | fin a, fin b => decide (a < b)

end Val

/-- One update step of `pandas.Series.ewm(span, adjust=False).mean()`:
a `nan` observation leaves the running mean unchanged (and is emitted as the
current mean, which is `nan` while no valid observation has been seen); the
first valid observation seeds the mean; afterwards
`y = (1-α)·prev + α·x`. -/
def ewmStep (a : ℚ) (prev x : Val) : Val :=
  match x, prev with
  | .nan, p => p
  | v, .nan => v
  | v, p => Val.vadd (Val.vmul (.fin (1 - a)) p) (Val.vmul (.fin a) v)

/-- The running recursion of `ewm(..., adjust=False).mean()`. -/
def ewmGo (a : ℚ) (prev : Val) : List Val → List Val
  | [] => []
  | x :: xs => ewmStep a prev x :: ewmGo a (ewmStep a prev x) xs

/-- Embeds `series.ewm(span=span, adjust=False).mean()` with `α = 2/(span+1)`. -/
def ewmMean (xs : List Val) (span : ℕ) : List Val :=
  ewmGo (2 / (span + 1)) Val.nan xs

/-- Embeds `TechnicalIndicators.calculate_ema(data, period)`:
`data.ewm(span=period, adjust=False).mean()`. -/
def calculate_ema (data : List Val) (period : ℕ) : List Val :=
  ewmMean data period

/-- The spec's EMA recurrence over exact rationals:
seed with the first observation, then `ema[i] = ema[i-1] + α·(x[i] − ema[i-1])`
with `α = 2/(period+1)`. -/
def emaSpecGo (a prev : ℚ) : List ℚ → List ℚ
  | [] => []
  | x :: xs => (prev + a * (x - prev)) :: emaSpecGo a (prev + a * (x - prev)) xs

/-- The spec's EMA: row 0 equals row 0 of the input, then the recurrence. -/
def emaSpec (data : List ℚ) (period : ℕ) : List ℚ :=
  match data with
  | [] => []
  | x :: xs => x :: emaSpecGo (2 / (period + 1)) x xs

/-- One step of `pandas.Series.diff()`: the current value minus the previous
one; the subtraction against the initial `nan` carry yields `nan` at row 0,
exactly as `diff` leaves the first row undefined. -/
def vdiffGo (prev : Val) : List Val → List Val
  | [] => []
  | x :: xs => Val.vsub x prev :: vdiffGo x xs

/-- `series.diff()`: first differences, `nan` at row 0. -/
def vdiff (xs : List Val) : List Val := vdiffGo Val.nan xs

/-- Embeds `TechnicalIndicators.calculate_macd(data, fast, slow, signal)`:
returns (macd line, signal line, histogram). -/
def calculate_macd (data : List Val) (fast_period slow_period signal_period : ℕ) :
    List Val × List Val × List Val :=
  let fast_ema := calculate_ema data fast_period
  let slow_ema := calculate_ema data slow_period
  let macd_line := List.zipWith Val.vsub fast_ema slow_ema
  let signal_line := calculate_ema macd_line signal_period
  let macd_histogram := List.zipWith Val.vsub macd_line signal_line
  (macd_line, signal_line, macd_histogram)

/-- The `gains` series of `calculate_rsi`:
`delta.where(delta > 0, 0)` — keep the difference where it is strictly
positive, otherwise (including the `nan` at row 0, which compares false) `0`. -/
def rsiGains (data : List Val) : List Val :=
  (vdiff data).map (fun d => if Val.vlt (Val.fin 0) d then d else Val.fin 0)

/-- The `losses` series of `calculate_rsi`:
`-delta.where(delta < 0, 0)` — keep the difference where strictly negative,
otherwise `0`, then negate elementwise. -/
def rsiLosses (data : List Val) : List Val :=
  ((vdiff data).map (fun d => if Val.vlt d (Val.fin 0) then d else Val.fin 0)).map Val.vneg

/-- Embeds `avg_gains = gains.ewm(span=period, adjust=False).mean()`. -/
def rsiAvgGains (data : List Val) (period : ℕ) : List Val :=
  ewmMean (rsiGains data) period

/-- Embeds `avg_losses = losses.ewm(span=period, adjust=False).mean()`. -/
def rsiAvgLosses (data : List Val) (period : ℕ) : List Val :=
  ewmMean (rsiLosses data) period

/-- Embeds `TechnicalIndicators.calculate_rsi(data, period)`:
`rs = avg_gains / avg_losses`, `rsi = 100 - 100/(1 + rs)`, with float
semantics (`0/0 = nan`, `g/0 = +inf` for `g > 0`, `100 - 100/(1 + inf) = 100`). -/
def calculate_rsi (data : List Val) (period : ℕ) : List Val :=
  let rs := List.zipWith Val.vdiv (rsiAvgGains data period) (rsiAvgLosses data period)
  rs.map (fun r => Val.vsub (Val.fin 100) (Val.vdiv (Val.fin 100) (Val.vadd (Val.fin 1) r)))

/-- Extract the underlying rationals of a window if every value is finite;
a window containing any non-finite value yields a `nan` (`none`) statistic,
as in pandas rolling aggregation over a window containing `NaN`. -/
def valsToQ : List Val → Option (List ℚ)
  | [] => some []
  | Val.fin q :: xs => (valsToQ xs).map (fun ws => q :: ws)
  | _ => none

/-- Mean of a full rolling window of size `period`. -/
def windowMean (w : List ℚ) (period : ℕ) : ℚ := w.sum / (period : ℚ)

/-- Sample variance (`ddof = 1`, the pandas `rolling(...).std()` convention:
divide by `period - 1`) of a full rolling window of size `period`. -/
def windowVar (w : List ℚ) (period : ℕ) : ℚ :=
  (w.map (fun x => (x - windowMean w period) ^ 2)).sum / ((period : ℚ) - 1)

/-- The per-row rolling statistics of `calculate_bollinger_bands`: at row `i`
the trailing window of the last `period` observations, `none` while fewer
than `period` observations exist (`rolling(window=period)` with its default
`min_periods`), paired as (mean, sample variance). -/
def bbWindows (data : List Val) (period : ℕ) : List (Option (ℚ × ℚ)) :=
  (List.range data.length).map (fun i =>
    if period ≤ i + 1 then
      match valsToQ ((data.take (i + 1)).drop (i + 1 - period)) with
      | some w => some (windowMean w period, windowVar w period)
      | none => none
    else none)

/-- The middle Bollinger band: the rolling mean, as a real-valued column. -/
noncomputable def bollingerMiddle (data : List Val) (period : ℕ) : List (Option ℝ) :=
  (bbWindows data period).map (Option.map (fun mv => ((mv.1 : ℚ) : ℝ)))

/-- The upper Bollinger band: `middle_band + (std * std_dev)` where
`std` is the rolling sample standard deviation, the square root of the
`ddof = 1` variance. -/
noncomputable def bollingerUpper (data : List Val) (period : ℕ) (std_dev : ℝ) :
    List (Option ℝ) :=
  (bbWindows data period).map
    (Option.map (fun mv => ((mv.1 : ℚ) : ℝ) + Real.sqrt ((mv.2 : ℚ) : ℝ) * std_dev))

/-- The lower Bollinger band: `middle_band - (std * std_dev)`. -/
noncomputable def bollingerLower (data : List Val) (period : ℕ) (std_dev : ℝ) :
    List (Option ℝ) :=
  (bbWindows data period).map
    (Option.map (fun mv => ((mv.1 : ℚ) : ℝ) - Real.sqrt ((mv.2 : ℚ) : ℝ) * std_dev))

/-- Embeds `TechnicalIndicators.calculate_bollinger_bands(data, period, std_dev)`:
returns (upper band, middle band, lower band). -/
noncomputable def calculate_bollinger_bands (data : List Val) (period : ℕ) (std_dev : ℝ) :
    List (Option ℝ) × List (Option ℝ) × List (Option ℝ) :=
  (bollingerUpper data period std_dev, bollingerMiddle data period,
    bollingerLower data period std_dev)

/-- A dataframe column: a float column or a real-valued derived column
(the Bollinger bands, which involve a square root). -/
inductive Col where
  | vcol : List Val → Col
  | rcol : List (Option ℝ) → Col

/-- A dataframe: named columns in left-to-right order. -/
abbrev Frame : Type := List (String × Col)

/-- Column assignment, pandas semantics: `df[name] = c` overwrites an
existing column in place, otherwise appends the new column on the right. -/
def setCol (df : Frame) (name : String) (c : Col) : Frame :=
  if df.any (fun p => p.1 = name) then
    df.map (fun p => if p.1 = name then (name, c) else p)
  else df ++ [(name, c)]

/-- Reads `df['close']` as a float series (the only column
`add_all_indicators` reads). -/
def getClose (df : Frame) : Option (List Val) :=
  match List.lookup "close" df with
  | some (Col.vcol xs) => some xs
  | _ => none

/-- The 11 indicator column names, in the order they are assigned. -/
def indicatorNames : List String :=
  ["ema_12", "ema_26", "ema_50", "ema_200", "macd", "macd_signal",
   "macd_histogram", "rsi", "bb_upper", "bb_middle", "bb_lower"]

/-- Embeds `TechnicalIndicators.add_all_indicators(df)`: works on a copy,
computes every indicator from the `close` column and assigns the 11
indicator columns in order; `none` models the `KeyError` raised when no
`close` float column exists. -/
noncomputable def add_all_indicators (df : Frame) : Option Frame :=
  (getClose df).map (fun close =>
    let df1 := setCol df "ema_12" (Col.vcol (calculate_ema close 12))
    let df2 := setCol df1 "ema_26" (Col.vcol (calculate_ema close 26))
    let df3 := setCol df2 "ema_50" (Col.vcol (calculate_ema close 50))
    let df4 := setCol df3 "ema_200" (Col.vcol (calculate_ema close 200))
    let macd := calculate_macd close 12 26 9
    let df5 := setCol df4 "macd" (Col.vcol macd.1)
    let df6 := setCol df5 "macd_signal" (Col.vcol macd.2.1)
    let df7 := setCol df6 "macd_histogram" (Col.vcol macd.2.2)
    let df8 := setCol df7 "rsi" (Col.vcol (calculate_rsi close 14))
    let bb := calculate_bollinger_bands close 20 2
    let df9 := setCol df8 "bb_upper" (Col.rcol bb.1)
    let df10 := setCol df9 "bb_middle" (Col.rcol bb.2.1)
    setCol df10 "bb_lower" (Col.rcol bb.2.2))

/-- One OHLCV candle as assembled by `DataCollector.fetch_ohlcv`: the
timestamp in integer milliseconds since the epoch (UTC, timezone dropped)
and the five float fields. -/
structure Candle where
  ts : ℤ
  opn : ℚ
  high : ℚ
  low : ℚ
  close : ℚ
  volume : ℚ
deriving DecidableEq, Repr

/-- Days since 1970-01-01 of a proleptic-Gregorian calendar date (year ≥ 1),
the standard civil-from-days inversion used by `datetime.timestamp()`. -/
def daysFromCivil (y m d : ℕ) : ℤ :=
  let y2 := if m ≤ 2 then y - 1 else y
  let era := y2 / 400
  let yoe := y2 % 400
  let mp := (m + 9) % 12
  let doy := (153 * mp + 2) / 5 + d - 1
  let doe := yoe * 365 + yoe / 4 - yoe / 100 + doy
  ((era * 146097 + doe : ℕ) : ℤ) - 719468

/-- A calendar date as parsed from a `'YYYY-MM-DD'` string. -/
structure Date where
  year : ℕ
  month : ℕ
  day : ℕ
deriving DecidableEq, Repr

/-- Milliseconds since the epoch of a date at 00:00:00 UTC, as computed by
`datetime.strptime(s, '%Y-%m-%d').replace(tzinfo=timezone.utc).timestamp() * 1000`. -/
def dateToEpochMs (d : Date) : ℤ :=
  daysFromCivil d.year d.month d.day * 86400000

/-- The timestamp of the last row of a batch,
`df['timestamp'].iloc[-1]` in milliseconds (the batch is non-empty at every
use site; the default is never read). -/
def lastTs (df : List Candle) : ℤ :=
  ((df.getLast?).map Candle.ts).getD 0

/-- Embeds the batch loop of `DataCollector.fetch_all_historical_data`:
`while current_ts < end_ts`, fetch a batch at `since = current_ts`; an empty
batch ends the loop; otherwise append the batch and advance the cursor to
`last_timestamp + 60000` (the hard-coded `+1 minute`), stopping once the
cursor reaches `end_ts`.  The provider is a pure oracle from `since` to a
batch, and `fuel` bounds the iteration count (the Python loop can run
unboundedly for an adversarial provider). -/
def backfillLoop (fetch : ℤ → List Candle) :
    ℕ → ℤ → ℤ → List (List Candle) → List (List Candle)
  | 0, _, _, acc => acc
  | fuel + 1, current, endTs, acc =>
    if current < endTs then
      if fetch current = [] then acc
      else
        let acc2 := acc ++ [fetch current]
        let current2 := lastTs (fetch current) + 60000
        if endTs ≤ current2 then acc2
        else backfillLoop fetch fuel current2 endTs acc2
    else acc

/-- Modelled from the spec: the same batch loop but advancing the cursor to
`last_batch_timestamp + one timeframe interval`, with the interval in
milliseconds a parameter.  The spec's step 2d prescribes this advance for the
configured timeframe; comparing it against `backfillLoop` settles whether the
code does so. -/
def backfillLoopSpec (intervalMs : ℤ) (fetch : ℤ → List Candle) :
    ℕ → ℤ → ℤ → List (List Candle) → List (List Candle)
  | 0, _, _, acc => acc
  | fuel + 1, current, endTs, acc =>
    if current < endTs then
      if fetch current = [] then acc
      else
        let acc2 := acc ++ [fetch current]
        let current2 := lastTs (fetch current) + intervalMs
        if endTs ≤ current2 then acc2
        else backfillLoopSpec intervalMs fetch fuel current2 endTs acc2
    else acc

/-- Modelled from the spec: the length in milliseconds of one candle
interval for the timeframes the collector documents
(`'1m', '5m', '15m', '1h', '1d'`). -/
def timeframeIntervalMs (tf : String) : Option ℤ :=
  if tf = "1m" then some 60000
  else if tf = "5m" then some 300000
  else if tf = "15m" then some 900000
  else if tf = "1h" then some 3600000
  else if tf = "1d" then some 86400000
  else none

/-- Embeds `combined_df.drop_duplicates(subset=['timestamp'])`: keep the
first row carrying each timestamp, preserving order. -/
def dedupSeen (seen : List ℤ) : List Candle → List Candle
  | [] => []
  | c :: cs =>
    if c.ts ∈ seen then dedupSeen seen cs
    else c :: dedupSeen (c.ts :: seen) cs

/-- Embeds `combined_df.sort_values('timestamp')`: sort ascending by
timestamp (the input has pairwise distinct timestamps after deduplication,
so stability is immaterial). -/
def sortByTs (l : List Candle) : List Candle :=
  List.insertionSort (fun a b => a.ts ≤ b.ts) l

/-- Embeds `DataCollector.fetch_all_historical_data(start_date, end_date)`.
Dates are already-parsed `'YYYY-MM-DD'` values; `today` is the current UTC
date (`datetime.now(timezone.utc)`); `fetch` is the provider oracle and
`fuel` the iteration bound.  Defaults: start `2017-01-01`, end `today`.
The loop runs up to `end_ts` = end date 23:59:59.999; the final truncation
keeps rows with timestamp at most end date 23:59:59.000 (the re-parsed end
datetime has no microseconds).  `none` models the `ValueError` raised when
no data was collected. -/
def fetch_all_historical_data (fetch : ℤ → List Candle) (fuel : ℕ) (today : Date)
    (start_date end_date : Option Date) : Option (List Candle) :=
  let startD := start_date.getD ⟨2017, 1, 1⟩
  let endD := end_date.getD today
  let startTs := dateToEpochMs startD
  let endTs := dateToEpochMs endD + 86399999
  let batches := backfillLoop fetch fuel startTs endTs []
  if batches = [] then none
  else
    let combined := batches.flatten
    let deduped := dedupSeen [] combined
    let sorted := sortByTs deduped
    let endDt := dateToEpochMs endD + 86399000
    some (sorted.filter (fun c => c.ts ≤ endDt))

/-- A raw dataframe as handed to `DataCollector.validate_data`: named
columns of float cells (`none` is a null/NaN cell), all of length `nrows`. -/
structure RawFrame where
  cols : List (String × List (Option ℚ))
  nrows : ℕ
  hwf : ∀ p ∈ cols, p.2.length = nrows

/-- Column access by name (first match). -/
def getCol (f : RawFrame) (name : String) : Option (List (Option ℚ)) :=
  List.lookup name f.cols

/-- The `required_columns` list of `validate_data`. -/
def requiredColumns : List String :=
  ["timestamp", "open", "high", "low", "close", "volume"]

/-- The `price_columns` list of `validate_data`. -/
def priceColumns : List String := ["open", "high", "low", "close"]

/-- A float-semantics cell comparison: `a < b`, false when either side is
null/NaN. -/
def cellLt (a b : Option ℚ) : Bool :=
  match a, b with
  | some x, some y => decide (x < y)
  | _, _ => false

/-- Whether some aligned row of two columns satisfies `xs < ys`. -/
def anyColLt (xs ys : List (Option ℚ)) : Bool :=
  (List.zipWith cellLt xs ys).any id

/-- Whether a price column contains a non-positive value
(`(df[col] <= 0).any()`; null cells compare false). -/
def colHasNonpos (xs : List (Option ℚ)) : Bool :=
  xs.any (fun v =>
    match v with
    | some q => decide (q ≤ 0)
    | none => false)

/-- The diagnostic warnings `validate_data` prints without failing. -/
inductive Warning where
  | nullValues : Warning
  | ohlcViolations : Warning
  | duplicateTimestamps : Warning
deriving DecidableEq, Repr

/-- Embeds `DataCollector.validate_data(df)`: returns the boolean result
paired with the warnings reported on the way.  Empty data or a missing
required column fails immediately; a null check only warns; a non-positive
value in a price column fails; OHLC-logic violations and duplicate
timestamps only warn. -/
def validate_data (f : RawFrame) : Bool × List Warning :=
  if f.nrows = 0 then (false, [])
  else if ¬ (requiredColumns.all (fun c => (getCol f c).isSome)) then (false, [])
  else
    let warnNull :=
      if requiredColumns.any (fun c => ((getCol f c).getD []).any Option.isNone)
      then [Warning.nullValues] else []
    if priceColumns.any (fun c => colHasNonpos ((getCol f c).getD [])) then
      (false, warnNull)
    else
      let openCol := (getCol f "open").getD []
      let highCol := (getCol f "high").getD []
      let lowCol := (getCol f "low").getD []
      let closeCol := (getCol f "close").getD []
      let invalidHigh :=
        anyColLt highCol lowCol || anyColLt highCol openCol || anyColLt highCol closeCol
      let invalidLow := anyColLt openCol lowCol || anyColLt closeCol lowCol
      let warnOhlc :=
        if invalidHigh || invalidLow then [Warning.ohlcViolations] else []
      let tsCol := (getCol f "timestamp").getD []
      let warnDup :=
        if tsCol.Nodup then [] else [Warning.duplicateTimestamps]
      (true, warnNull ++ warnOhlc ++ warnDup)

/-- Modelled from the spec: the five candle value fields
(open, high, low, close, volume) — the reading of the claim's "five required
fields" on which the candle's timestamp is its key, not a field. -/
def fiveValueFields : List String := ["open", "high", "low", "close", "volume"]

/-- A one-row frame carrying the five value fields but no timestamp column:
non-empty, positive prices, yet rejected by `validate_data`. -/
def frameNoTimestamp : RawFrame where
  cols := [("open", [some 1]), ("high", [some 2]), ("low", [some 1]),
           ("close", [some 2]), ("volume", [some 3])]
  nrows := 1
  hwf := by decide

/-- The flat-candle close series of the spec's RSI scenario: five candles
with `close = 100`. -/
def flatCloses : List Val := List.replicate 5 (Val.fin 100)

/-- A strictly increasing 15-observation close series (period 14 plus one):
every first difference is a gain. -/
def risingCloses : List Val :=
  [Val.fin 1, Val.fin 2, Val.fin 3, Val.fin 4, Val.fin 5, Val.fin 6, Val.fin 7,
   Val.fin 8, Val.fin 9, Val.fin 10, Val.fin 11, Val.fin 12, Val.fin 13,
   Val.fin 14, Val.fin 15]

/-- A strictly decreasing 15-observation close series: every first
difference is a loss. -/
def fallingCloses : List Val :=
  [Val.fin 15, Val.fin 14, Val.fin 13, Val.fin 12, Val.fin 11, Val.fin 10,
   Val.fin 9, Val.fin 8, Val.fin 7, Val.fin 6, Val.fin 5, Val.fin 4, Val.fin 3,
   Val.fin 2, Val.fin 1]

/-- A provider oracle for the cursor-advance counterexample: candles at
0 ms and at 60000 ms, nothing afterwards. -/
def minuteFetch (since : ℤ) : List Candle :=
  if since = 0 then [⟨0, 1, 1, 1, 1, 1⟩]
  else if since = 60000 then [⟨60000, 1, 1, 1, 1, 1⟩]
  else []

/-- The single candle returned by `witnessFetch`: first minute of
2017-01-01 UTC. -/
def witnessCandle : Candle := ⟨1483228800000, 1, 2, 1, 2, 3⟩

/-- A provider oracle returning one candle at 2017-01-01 00:00:00 UTC. -/
def witnessFetch (since : ℤ) : List Candle :=
  if since = 1483228800000 then [witnessCandle] else []

/-- Twenty constant closes: one full Bollinger window of zero variance. -/
def constantCloses : List Val := List.replicate 20 (Val.fin 1)

lemma vsub_nan (x : Val) : Val.vsub x Val.nan = Val.nan := by
  cases x <;> rfl

lemma ewmStep_seed (a : ℚ) (x : ℚ) :
    ewmStep a Val.nan (Val.fin x) = Val.fin x := rfl

lemma ewmStep_fin (a q x : ℚ) :
    ewmStep a (Val.fin q) (Val.fin x) = Val.fin (q + a * (x - q)) := by
  show Val.vadd (Val.vmul (Val.fin (1 - a)) (Val.fin q))
      (Val.vmul (Val.fin a) (Val.fin x)) = Val.fin (q + a * (x - q))
  show Val.fin ((1 - a) * q + a * x) = Val.fin (q + a * (x - q))
  congr 1
  ring

lemma ewmGo_map_fin (a : ℚ) (xs : List ℚ) :
    ∀ q : ℚ, ewmGo a (Val.fin q) (xs.map Val.fin) = (emaSpecGo a q xs).map Val.fin := by
  induction xs with
  | nil => intro q; rfl
  | cons x xs ih =>
    intro q
    simp only [List.map_cons, ewmGo, emaSpecGo, ewmStep_fin, ih]

lemma calculate_ema_map_fin (data : List ℚ) (p : ℕ) :
    calculate_ema (data.map Val.fin) p = (emaSpec data p).map Val.fin := by
  cases data with
  | nil => rfl
  | cons x xs =>
    show ewmGo _ Val.nan (Val.fin x :: xs.map Val.fin) = _
    simp only [ewmGo, ewmStep_seed, emaSpec, List.map_cons]
    exact congrArg _ (ewmGo_map_fin _ xs x)

lemma emaSpecGo_length (a : ℚ) (xs : List ℚ) :
    ∀ q : ℚ, (emaSpecGo a q xs).length = xs.length := by
  induction xs with
  | nil => intro q; rfl
  | cons x xs ih => intro q; simp [emaSpecGo, ih]

lemma emaSpecGo_getD (a : ℚ) (xs : List ℚ) :
    ∀ (q : ℚ) (i : ℕ), i + 1 < xs.length →
      (emaSpecGo a q xs).getD (i + 1) 0 =
        (emaSpecGo a q xs).getD i 0 +
          a * (xs.getD (i + 1) 0 - (emaSpecGo a q xs).getD i 0) := by
  induction xs with
  | nil => intro q i h; simp at h
  | cons x xs ih =>
    intro q i h
    cases i with
    | zero =>
      cases xs with
      | nil => simp at h
      | cons x2 xs2 => simp [emaSpecGo]
    | succ i =>
      have h2 : i + 1 < xs.length := by
        simpa using Nat.lt_of_succ_lt_succ h
      simp only [emaSpecGo, List.getD_cons_succ]
      exact ih (q + a * (x - q)) i h2

/-- C3: for every non-empty price series and every (provider-valid) period
`p ≥ 1`, `calculate_ema` is defined (finite) at every row, row 0 equals
row 0 of the input, and each subsequent row obeys
`ema[i] = ema[i-1] + α·(price[i] − ema[i-1])` with `α = 2/(p+1)`. -/
theorem c3_ema_seed_recurrence (data : List ℚ) (p : ℕ) (hp : 1 ≤ p)
    (hne : data ≠ []) :
    ∃ e : List ℚ,
      calculate_ema (data.map Val.fin) p = e.map Val.fin ∧
      e.length = data.length ∧
      e.head? = data.head? ∧
      ∀ i : ℕ, i + 1 < data.length →
        e.getD (i + 1) 0 =
          e.getD i 0 + 2 / ((p : ℚ) + 1) * (data.getD (i + 1) 0 - e.getD i 0) := by
  refine ⟨emaSpec data p, calculate_ema_map_fin data p, ?_, ?_, ?_⟩
  · cases data with
    | nil => rfl
    | cons x xs => simp [emaSpec, emaSpecGo_length]
  · cases data with
    | nil => rfl
    | cons x xs => rfl
  · intro i hi
    cases data with
    | nil => simp at hi
    | cons x xs =>
      cases i with
      | zero =>
        cases xs with
        | nil => simp at hi
        | cons x2 xs2 => simp [emaSpec, emaSpecGo]
      | succ i =>
        have h2 : i + 1 < xs.length := by
          simpa using Nat.lt_of_succ_lt_succ hi
        simp only [emaSpec, List.getD_cons_succ]
        exact emaSpecGo_getD _ xs x i h2

/-- C3 witness: the recurrence theorem applied to the two-row series `[1, 2]`
at period 12. -/
theorem c3_ema_witness :
    (1 ≤ 12 ∧ ([(1 : ℚ), 2] ≠ ([] : List ℚ))) ∧
    ∃ e : List ℚ,
      calculate_ema ([(1 : ℚ), 2].map Val.fin) 12 = e.map Val.fin ∧
      e.length = ([(1 : ℚ), 2] : List ℚ).length ∧
      e.head? = ([(1 : ℚ), 2] : List ℚ).head? ∧
      ∀ i : ℕ, i + 1 < ([(1 : ℚ), 2] : List ℚ).length →
        e.getD (i + 1) 0 =
          e.getD i 0 +
            2 / ((12 : ℕ) + 1 : ℚ) * (([(1 : ℚ), 2] : List ℚ).getD (i + 1) 0 - e.getD i 0) :=
  ⟨⟨by norm_num, by simp⟩, c3_ema_seed_recurrence [1, 2] 12 (by norm_num) (by simp)⟩

/-- C1 (counterexample): on the five flat candles the claim predicts RSI
exactly 100 past the one-row warm-up, but row 4 evaluates to `nan`. -/
theorem c1_flat_rsi_counterexample :
    (calculate_rsi flatCloses 14)[4]? = some Val.nan ∧ Val.nan ≠ Val.fin 100 := by
  constructor
  · norm_num [calculate_rsi, rsiAvgGains, rsiAvgLosses, rsiGains, rsiLosses,
      ewmMean, ewmGo, ewmStep, vdiff, vdiffGo, flatCloses, List.replicate,
      Val.vadd, Val.vsub, Val.vmul, Val.vdiv, Val.vneg, Val.vlt]
  · intro h
    exact Val.noConfusion h

/-- C1 (amended): on five flat candles both the smoothed gains and the
smoothed losses are identically zero, so `rs = 0/0` is undefined and
`calculate_rsi` reports `nan` at every row — not 100.  (RSI is 100 only
when `avg_loss` is zero while `avg_gain` is positive.) -/
theorem c1_flat_rsi_nan :
    calculate_rsi flatCloses 14 = List.replicate 5 Val.nan := by
  norm_num [calculate_rsi, rsiAvgGains, rsiAvgLosses, rsiGains, rsiLosses,
    ewmMean, ewmGo, ewmStep, vdiff, vdiffGo, flatCloses, List.replicate,
    Val.vadd, Val.vsub, Val.vmul, Val.vdiv, Val.vneg, Val.vlt]

/-- C9: the undefined first difference is replaced by `0` in both the gains
and the losses series (a `nan` comparison is false, so `where` substitutes
the fill value), hence both smoothing EWMAs are seeded with `0` at row 0;
and the zero seed is weighted into the next smoothed value
(`avg[1] = (1-α)·0 + α·gain[1]`, not `gain[1]` itself). -/
theorem c9_rsi_zero_seed (data : List Val) (p : ℕ) (hne : data ≠ []) :
    (rsiGains data).head? = some (Val.fin 0) ∧
    (rsiLosses data).head? = some (Val.fin 0) ∧
    (rsiAvgGains data p).head? = some (Val.fin 0) ∧
    (rsiAvgLosses data p).head? = some (Val.fin 0) ∧
    (rsiAvgGains [Val.fin 0, Val.fin 1] 14)[1]? = some (Val.fin (2 / 15)) := by
  cases data with
  | nil => exact absurd rfl hne
  | cons x xs =>
    refine ⟨?_, ?_, ?_, ?_, ?_⟩
    · simp [rsiGains, vdiff, vdiffGo, vsub_nan, Val.vlt]
    · simp [rsiLosses, vdiff, vdiffGo, vsub_nan, Val.vlt, Val.vneg, neg_zero]
    · simp [rsiAvgGains, rsiGains, vdiff, vdiffGo, vsub_nan, Val.vlt,
        ewmMean, ewmGo, ewmStep]
    · simp [rsiAvgLosses, rsiLosses, vdiff, vdiffGo, vsub_nan, Val.vlt,
        Val.vneg, neg_zero, ewmMean, ewmGo, ewmStep]
    · norm_num [rsiAvgGains, rsiGains, vdiff, vdiffGo, ewmMean, ewmGo,
        ewmStep, Val.vadd, Val.vsub, Val.vmul, Val.vneg, Val.vlt]

/-- C9 witness: the zero-seed theorem applied to the one-row series `[7]`. -/
theorem c9_rsi_zero_seed_witness :
    ([Val.fin 7] ≠ ([] : List Val)) ∧
    ((rsiGains [Val.fin 7]).head? = some (Val.fin 0) ∧
     (rsiLosses [Val.fin 7]).head? = some (Val.fin 0) ∧
     (rsiAvgGains [Val.fin 7] 14).head? = some (Val.fin 0) ∧
     (rsiAvgLosses [Val.fin 7] 14).head? = some (Val.fin 0) ∧
     (rsiAvgGains [Val.fin 0, Val.fin 1] 14)[1]? = some (Val.fin (2 / 15))) :=
  ⟨by simp, c9_rsi_zero_seed [Val.fin 7] 14 (by simp)⟩

lemma mem_zipWith {α : Type} {f : α → α → α} :
    ∀ {as bs : List α} {x : α}, x ∈ List.zipWith f as bs →
      ∃ a ∈ as, ∃ b ∈ bs, x = f a b := by
  intro as
  induction as with
  | nil => intro bs x h; simp at h
  | cons a as ih =>
    intro bs x h
    cases bs with
    | nil => simp at h
    | cons b bs =>
      simp only [List.zipWith_cons_cons, List.mem_cons] at h
      rcases h with rfl | h
      · exact ⟨a, by simp, b, by simp, rfl⟩
      · obtain ⟨a2, ha, b2, hb, hx⟩ := ih h
        exact ⟨a2, by simp [ha], b2, by simp [hb], hx⟩

lemma vdiffGo_elems (xs : List ℚ) :
    ∀ prev : Val, (prev = Val.nan ∨ ∃ q : ℚ, prev = Val.fin q) →
      ∀ v ∈ vdiffGo prev (xs.map Val.fin), v = Val.nan ∨ ∃ q : ℚ, v = Val.fin q := by
  induction xs with
  | nil => intro prev _ v hv; simp [vdiffGo] at hv
  | cons x xs ih =>
    intro prev hprev v hv
    simp only [List.map_cons, vdiffGo, List.mem_cons] at hv
    rcases hv with rfl | hv
    · rcases hprev with rfl | ⟨q, rfl⟩
      · exact Or.inl (vsub_nan _)
      · exact Or.inr ⟨x + -q, rfl⟩
    · exact ih (Val.fin x) (Or.inr ⟨x, rfl⟩) v hv

lemma rsiGains_elems (data : List ℚ) :
    ∀ v ∈ rsiGains (data.map Val.fin), ∃ q : ℚ, v = Val.fin q ∧ 0 ≤ q := by
  intro v hv
  simp only [rsiGains, vdiff, List.mem_map] at hv
  obtain ⟨d, hd, rfl⟩ := hv
  rcases vdiffGo_elems data Val.nan (Or.inl rfl) d hd with rfl | ⟨q, rfl⟩
  · exact ⟨0, by simp [Val.vlt], le_refl 0⟩
  · by_cases h : (0 : ℚ) < q
    · exact ⟨q, by simp [Val.vlt, h], le_of_lt h⟩
    · exact ⟨0, by simp [Val.vlt, h], le_refl 0⟩

lemma rsiLosses_elems (data : List ℚ) :
    ∀ v ∈ rsiLosses (data.map Val.fin), ∃ q : ℚ, v = Val.fin q ∧ 0 ≤ q := by
  intro v hv
  simp only [rsiLosses, vdiff, List.map_map, List.mem_map, Function.comp] at hv
  obtain ⟨d, hd, rfl⟩ := hv
  rcases vdiffGo_elems data Val.nan (Or.inl rfl) d hd with rfl | ⟨q, rfl⟩
  · exact ⟨-0, by simp [Val.vlt, Val.vneg], by norm_num⟩
  · by_cases h : q < 0
    · exact ⟨-q, by simp [Val.vlt, Val.vneg, h], by linarith⟩
    · exact ⟨-0, by simp [Val.vlt, Val.vneg, h], by norm_num⟩

lemma ewmGo_nonneg (a : ℚ) (ha0 : 0 ≤ a) (ha1 : a ≤ 1) :
    ∀ (xs : List Val) (prev : Val),
      (prev = Val.nan ∨ ∃ q : ℚ, prev = Val.fin q ∧ 0 ≤ q) →
      (∀ x ∈ xs, ∃ q : ℚ, x = Val.fin q ∧ 0 ≤ q) →
      ∀ v ∈ ewmGo a prev xs, ∃ q : ℚ, v = Val.fin q ∧ 0 ≤ q := by
  intro xs
  induction xs with
  | nil => intro prev _ _ v hv; simp [ewmGo] at hv
  | cons x xs ih =>
    intro prev hprev hxs v hv
    obtain ⟨qx, rfl, hqx⟩ := hxs x (by simp)
    have hstep : ∃ q : ℚ, ewmStep a prev (Val.fin qx) = Val.fin q ∧ 0 ≤ q := by
      rcases hprev with rfl | ⟨qp, rfl, hqp⟩
      · exact ⟨qx, rfl, hqx⟩
      · refine ⟨qp + a * (qx - qp), ewmStep_fin a qp qx, ?_⟩
        nlinarith [mul_nonneg (by linarith : (0 : ℚ) ≤ 1 - a) hqp, mul_nonneg ha0 hqx]
    obtain ⟨qy, hy, hqy⟩ := hstep
    simp only [ewmGo, List.mem_cons] at hv
    rcases hv with rfl | hv
    · exact ⟨qy, hy, hqy⟩
    · exact ih (ewmStep a prev (Val.fin qx)) (Or.inr ⟨qy, hy, hqy⟩)
        (fun z hz => hxs z (by simp [hz])) v hv

lemma alpha_nonneg (p : ℕ) : 0 ≤ 2 / ((p : ℚ) + 1) := by positivity

lemma alpha_le_one (p : ℕ) (hp : 1 ≤ p) : 2 / ((p : ℚ) + 1) ≤ 1 := by
  rw [div_le_one (by positivity)]
  have h : (1 : ℚ) ≤ (p : ℚ) := by exact_mod_cast hp
  linarith

/-- C4: every defined (non-`nan`) output of `calculate_rsi` on a finite
input series with at least `period + 1` observations lies in `[0, 100]`;
the all-gains series yields exactly 100 and the all-losses series exactly 0
past the one-row warm-up, with no division fault in either case (the
float semantics turns `avg_gain/0` into `+inf` and `100 - 100/(1 + inf)`
into 100). -/
theorem c4_rsi_bound :
    (∀ (data : List ℚ) (p : ℕ), 1 ≤ p → p + 1 ≤ data.length →
        ∀ v ∈ calculate_rsi (data.map Val.fin) p, v ≠ Val.nan →
          ∃ q : ℚ, v = Val.fin q ∧ 0 ≤ q ∧ q ≤ 100) ∧
    calculate_rsi risingCloses 14 = Val.nan :: List.replicate 14 (Val.fin 100) ∧
    calculate_rsi fallingCloses 14 = Val.nan :: List.replicate 14 (Val.fin 0) := by
  refine ⟨?_, ?_, ?_⟩
  · intro data p hp _ v hv hvn
    simp only [calculate_rsi, List.mem_map] at hv
    obtain ⟨r, hr, rfl⟩ := hv
    obtain ⟨g, hg, l, hl, rfl⟩ := mem_zipWith hr
    have hg2 : g ∈ ewmGo (2 / ((p : ℚ) + 1)) Val.nan (rsiGains (data.map Val.fin)) := hg
    have hl2 : l ∈ ewmGo (2 / ((p : ℚ) + 1)) Val.nan (rsiLosses (data.map Val.fin)) := hl
    obtain ⟨qg, rfl, hqg⟩ := ewmGo_nonneg _ (alpha_nonneg p) (alpha_le_one p hp) _
      Val.nan (Or.inl rfl) (rsiGains_elems data) g hg2
    obtain ⟨ql, rfl, hql⟩ := ewmGo_nonneg _ (alpha_nonneg p) (alpha_le_one p hp) _
      Val.nan (Or.inl rfl) (rsiLosses_elems data) l hl2
    by_cases hl0 : ql = 0
    · by_cases hg0 : qg = 0
      · exfalso
        apply hvn
        subst hl0 hg0
        norm_num [Val.vdiv, Val.vadd, Val.vsub, Val.vneg]
      · have hgpos : 0 < qg := lt_of_le_of_ne hqg (Ne.symm hg0)
        subst hl0
        have e1 : Val.vdiv (Val.fin qg) (Val.fin 0) = Val.pinf := by
          norm_num [Val.vdiv, hg0, hgpos]
        rw [e1]
        refine ⟨100, ?_, by norm_num, by norm_num⟩
        norm_num [Val.vadd, Val.vdiv, Val.vsub, Val.vneg]
    · have hlpos : 0 < ql := lt_of_le_of_ne hql (Ne.symm hl0)
      have e1 : Val.vdiv (Val.fin qg) (Val.fin ql) = Val.fin (qg / ql) := by
        norm_num [Val.vdiv, hl0]
      rw [e1]
      have hs : 0 ≤ qg / ql := div_nonneg hqg (le_of_lt hlpos)
      have h1s : (1 : ℚ) + qg / ql ≠ 0 := by linarith
      have e2 : Val.vadd (Val.fin 1) (Val.fin (qg / ql)) = Val.fin (1 + qg / ql) := rfl
      have e3 : Val.vdiv (Val.fin 100) (Val.fin (1 + qg / ql)) =
          Val.fin (100 / (1 + qg / ql)) := by
        norm_num [Val.vdiv, h1s]
      rw [e2, e3]
      refine ⟨100 + -(100 / (1 + qg / ql)), rfl, ?_, ?_⟩
      · have hd : 100 / (1 + qg / ql) ≤ 100 / 1 := by
          apply div_le_div_of_nonneg_left (by norm_num) (by norm_num) (by linarith)
        simp at hd
        linarith
      · have hd : 0 ≤ 100 / (1 + qg / ql) := by positivity
        linarith
  · norm_num [calculate_rsi, rsiAvgGains, rsiAvgLosses, rsiGains, rsiLosses,
      ewmMean, ewmGo, ewmStep, vdiff, vdiffGo, risingCloses, List.replicate,
      Val.vadd, Val.vsub, Val.vmul, Val.vdiv, Val.vneg, Val.vlt]
  · norm_num [calculate_rsi, rsiAvgGains, rsiAvgLosses, rsiGains, rsiLosses,
      ewmMean, ewmGo, ewmStep, vdiff, vdiffGo, fallingCloses, List.replicate,
      Val.vadd, Val.vsub, Val.vmul, Val.vdiv, Val.vneg, Val.vlt]

/-- C4 witness: the bound applied to the two-row series `[1, 2]` at
period 1. -/
theorem c4_rsi_bound_witness :
    (1 ≤ 1 ∧ 1 + 1 ≤ ([(1 : ℚ), 2] : List ℚ).length) ∧
    ∀ v ∈ calculate_rsi ([(1 : ℚ), 2].map Val.fin) 1, v ≠ Val.nan →
      ∃ q : ℚ, v = Val.fin q ∧ 0 ≤ q ∧ q ≤ 100 :=
  ⟨⟨le_refl 1, by simp⟩, c4_rsi_bound.1 [1, 2] 1 (le_refl 1) (by simp)⟩

lemma valsToQ_replicate (n : ℕ) (q : ℚ) :
    valsToQ (List.replicate n (Val.fin q)) = some (List.replicate n q) := by
  induction n with
  | zero => rfl
  | succ n ih => simp [valsToQ, List.replicate, ih]

lemma bbWindows_constant : (bbWindows constantCloses 20)[19]? = some (some (1, 0)) := by
  have hlen : constantCloses.length = 20 := by simp [constantCloses]
  have htake : constantCloses.take 20 = List.replicate 20 (Val.fin 1) := by
    simp only [constantCloses]
    norm_num [List.take_replicate]
  have htw : valsToQ (constantCloses.take 20) = some (List.replicate 20 (1 : ℚ)) := by
    rw [htake, valsToQ_replicate]
  have hmean : windowMean (List.replicate 20 (1 : ℚ)) 20 = 1 := by
    simp only [windowMean, List.sum_replicate]
    norm_num
  have hvar : windowVar (List.replicate 20 (1 : ℚ)) 20 = 0 := by
    simp only [windowVar, hmean, List.map_replicate, List.sum_replicate]
    norm_num
  simp only [bbWindows, hlen, List.getElem?_map, List.getElem?_range (by norm_num : 19 < 20),
    Option.map_some']
  norm_num [htw, hmean, hvar]

/-- C7: at every row where all three Bollinger outputs (period 20, k = 2)
are defined, `upper ≥ middle ≥ lower`: the bands differ from the middle by
`k` times a square root, which is non-negative. -/
theorem c7_bollinger_ordering (data : List Val) (i : ℕ) (u m l : ℝ)
    (hu : (calculate_bollinger_bands data 20 2).1[i]? = some (some u))
    (hm : (calculate_bollinger_bands data 20 2).2.1[i]? = some (some m))
    (hl : (calculate_bollinger_bands data 20 2).2.2[i]? = some (some l)) :
    l ≤ m ∧ m ≤ u := by
  simp only [calculate_bollinger_bands, bollingerUpper, bollingerMiddle,
    bollingerLower, List.getElem?_map] at hu hm hl
  cases hw : (bbWindows data 20)[i]? with
  | none => rw [hw] at hu; simp at hu
  | some o =>
    rw [hw] at hu hm hl
    cases o with
    | none => simp at hu
    | some mv =>
      simp only [Option.map_some', Option.some.injEq] at hu hm hl
      subst hu hm hl
      have hs : 0 ≤ Real.sqrt ((mv.2 : ℚ) : ℝ) * 2 :=
        mul_nonneg (Real.sqrt_nonneg _) (by norm_num)
      constructor <;> linarith

/-- C7 witness: twenty constant closes give a zero-variance window at
row 19, where all three bands are defined and equal. -/
theorem c7_bollinger_witness :
    (calculate_bollinger_bands constantCloses 20 2).1[19]? = some (some (1 : ℝ)) ∧
    (calculate_bollinger_bands constantCloses 20 2).2.1[19]? = some (some (1 : ℝ)) ∧
    (calculate_bollinger_bands constantCloses 20 2).2.2[19]? = some (some (1 : ℝ)) ∧
    ((1 : ℝ) ≤ 1 ∧ (1 : ℝ) ≤ 1) := by
  have hu : (calculate_bollinger_bands constantCloses 20 2).1[19]? = some (some (1 : ℝ)) := by
    simp only [calculate_bollinger_bands, bollingerUpper, List.getElem?_map,
      bbWindows_constant, Option.map_some']
    norm_num [Real.sqrt_zero]
  have hm : (calculate_bollinger_bands constantCloses 20 2).2.1[19]? = some (some (1 : ℝ)) := by
    simp only [calculate_bollinger_bands, bollingerMiddle, List.getElem?_map,
      bbWindows_constant, Option.map_some']
    norm_num
  have hl : (calculate_bollinger_bands constantCloses 20 2).2.2[19]? = some (some (1 : ℝ)) := by
    simp only [calculate_bollinger_bands, bollingerLower, List.getElem?_map,
      bbWindows_constant, Option.map_some']
    norm_num [Real.sqrt_zero]
  exact ⟨hu, hm, hl, c7_bollinger_ordering constantCloses 19 1 1 1 hu hm hl⟩

/-- C2 (counterexample): for the configured timeframe `'1h'` one interval is
3 600 000 ms, but the loop advances the cursor by 60 000 ms: on a provider
with 1-minute candles at 0 and 60 000 ms the code loop collects two batches
where the spec-prescribed 1-hour advance would collect one. -/
theorem c2_cursor_advance_counterexample :
    timeframeIntervalMs "1h" = some 3600000 ∧
    backfillLoop minuteFetch 5 0 7200000 [] ≠
      backfillLoopSpec 3600000 minuteFetch 5 0 7200000 [] := by
  constructor
  · decide
  · decide

/-- C2 (amended): in every iteration that receives a non-empty batch the
cursor is advanced to the last batch timestamp plus exactly 60 000 ms — one
interval of the `'1m'` timeframe only — regardless of the configured
timeframe: the code loop coincides with the spec loop instantiated at a
fixed one-minute interval. -/
theorem c2_cursor_advance_one_minute :
    (∀ (fetch : ℤ → List Candle) (fuel : ℕ) (current endTs : ℤ)
        (acc : List (List Candle)),
      backfillLoop fetch fuel current endTs acc =
        backfillLoopSpec 60000 fetch fuel current endTs acc) ∧
    timeframeIntervalMs "1m" = some 60000 := by
  constructor
  · intro fetch fuel
    induction fuel with
    | zero => intro current endTs acc; rfl
    | succ fuel ih =>
      intro current endTs acc
      simp only [backfillLoop, backfillLoopSpec]
      split_ifs <;> simp [ih]
  · decide

/-- C10: a missing start date defaults to 2017-01-01 and a missing end date
to the current UTC date — the collector behaves exactly as if called with
those dates; and the default start instant is 2017-01-01 00:00:00 UTC in
epoch milliseconds. -/
theorem c10_default_dates :
    (∀ (fetch : ℤ → List Candle) (fuel : ℕ) (today : Date) (e : Option Date),
        fetch_all_historical_data fetch fuel today none e =
          fetch_all_historical_data fetch fuel today (some ⟨2017, 1, 1⟩) e) ∧
    (∀ (fetch : ℤ → List Candle) (fuel : ℕ) (today : Date) (s : Option Date),
        fetch_all_historical_data fetch fuel today s none =
          fetch_all_historical_data fetch fuel today s (some today)) ∧
    dateToEpochMs ⟨2017, 1, 1⟩ = 1483228800000 :=
  ⟨fun _ _ _ _ => rfl, fun _ _ _ _ => rfl, by decide⟩

instance instIsTotalCandleTsLe : IsTotal Candle (fun a b => a.ts ≤ b.ts) :=
  ⟨fun a b => le_total a.ts b.ts⟩

instance instIsTransCandleTsLe : IsTrans Candle (fun a b => a.ts ≤ b.ts) :=
  ⟨fun _ _ _ hab hbc => le_trans hab hbc⟩

lemma dedupSeen_key_nodup (seen : List ℤ) (cs : List Candle) :
    ((dedupSeen seen cs).map Candle.ts).Nodup ∧
      ∀ c ∈ dedupSeen seen cs, c.ts ∉ seen := by
  induction cs generalizing seen with
  | nil => simp [dedupSeen]
  | cons c cs ih =>
    by_cases h : c.ts ∈ seen
    · simp only [dedupSeen, if_pos h]
      exact ih seen
    · simp only [dedupSeen, if_neg h, List.map_cons, List.nodup_cons]
      obtain ⟨h1, h2⟩ := ih (c.ts :: seen)
      refine ⟨⟨?_, h1⟩, ?_⟩
      · intro hmem
        obtain ⟨d, hd, hts⟩ := List.mem_map.mp hmem
        exact h2 d hd (by rw [hts]; exact List.mem_cons_self _ _)
      · intro d hd
        rcases List.mem_cons.mp hd with rfl | hd2
        · exact h
        · intro hds
          exact h2 d hd2 (List.mem_cons_of_mem _ hds)

lemma sortByTs_sorted (l : List Candle) :
    (sortByTs l).Pairwise (fun a b => a.ts ≤ b.ts) :=
  List.sorted_insertionSort _ l

lemma sortByTs_perm (l : List Candle) : (sortByTs l).Perm l :=
  List.perm_insertionSort _ l

lemma strict_of_sorted_key_nodup (s : List Candle)
    (hs : s.Pairwise (fun a b => a.ts ≤ b.ts)) (hn : (s.map Candle.ts).Nodup) :
    s.Pairwise (fun a b => a.ts < b.ts) := by
  have hne : s.Pairwise (fun a b => a.ts ≠ b.ts) := List.pairwise_map.mp hn
  exact (hs.and hne).imp (fun h => lt_of_le_of_ne h.1 h.2)

/-- C5: whenever `fetch_all_historical_data` returns normally, the returned
series has strictly increasing timestamps (hence no duplicates) and no row
lies beyond the end date's inclusive 23:59:59.999 boundary (the final
truncation is in fact stricter, cutting at 23:59:59.000). -/
theorem c5_fetch_all_invariants (fetch : ℤ → List Candle) (fuel : ℕ) (today : Date)
    (start_date end_date : Option Date) (result : List Candle)
    (h : fetch_all_historical_data fetch fuel today start_date end_date = some result) :
    result.Pairwise (fun a b => a.ts < b.ts) ∧
      ∀ c ∈ result, c.ts ≤ dateToEpochMs (end_date.getD today) + 86399999 := by
  simp only [fetch_all_historical_data] at h
  split at h
  · exact absurd h (by simp)
  · rw [Option.some.injEq] at h
    subst h
    have hd := (dedupSeen_key_nodup []
      (backfillLoop fetch fuel (dateToEpochMs (start_date.getD ⟨2017, 1, 1⟩))
        (dateToEpochMs (end_date.getD today) + 86399999) []).flatten).1
    have hperm :=
      (sortByTs_perm (dedupSeen []
        (backfillLoop fetch fuel (dateToEpochMs (start_date.getD ⟨2017, 1, 1⟩))
          (dateToEpochMs (end_date.getD today) + 86399999) []).flatten)).map Candle.ts
    have hnodup := (hperm.symm).nodup hd
    have hlt := strict_of_sorted_key_nodup _ (sortByTs_sorted _) hnodup
    constructor
    · exact hlt.sublist (List.filter_sublist _)
    · intro c hc
      have h2 := (List.mem_filter.mp hc).2
      have hle : c.ts ≤ dateToEpochMs (end_date.getD today) + 86399000 := by
        simpa using h2
      linarith

/-- C5 witness: a provider with one candle in the first minute of 2017-01-01,
backfilled over the single-day window 2017-01-01..2017-01-01. -/
theorem c5_fetch_all_witness :
    (fetch_all_historical_data witnessFetch 3 ⟨2017, 1, 2⟩ (some ⟨2017, 1, 1⟩)
        (some ⟨2017, 1, 1⟩) = some [witnessCandle]) ∧
    List.Pairwise (fun a b : Candle => a.ts < b.ts) [witnessCandle] ∧
    ∀ c ∈ [witnessCandle],
      c.ts ≤ dateToEpochMs ((some (Date.mk 2017 1 1)).getD ⟨2017, 1, 2⟩) + 86399999 := by
  have h : fetch_all_historical_data witnessFetch 3 ⟨2017, 1, 2⟩ (some ⟨2017, 1, 1⟩)
      (some ⟨2017, 1, 1⟩) = some [witnessCandle] := by decide
  exact ⟨h, (c5_fetch_all_invariants witnessFetch 3 ⟨2017, 1, 2⟩ (some ⟨2017, 1, 1⟩)
      (some ⟨2017, 1, 1⟩) [witnessCandle] h).1,
    (c5_fetch_all_invariants witnessFetch 3 ⟨2017, 1, 2⟩ (some ⟨2017, 1, 1⟩)
      (some ⟨2017, 1, 1⟩) [witnessCandle] h).2⟩

/-- C6 (counterexample): a non-empty frame carrying the five value fields
(open, high, low, close, volume) with positive prices — yet `validate_data`
returns `false`, because the required-column check also demands a sixth
column, `timestamp`. -/
theorem c6_validate_counterexample :
    (validate_data frameNoTimestamp).1 = false ∧
    frameNoTimestamp.nrows ≠ 0 ∧
    (∀ c ∈ fiveValueFields, (getCol frameNoTimestamp c).isSome = true) ∧
    (∀ c ∈ priceColumns, colHasNonpos ((getCol frameNoTimestamp c).getD []) = false) := by
  refine ⟨?_, ?_, ?_, ?_⟩ <;> decide

/-- C6 (amended): `validate_data` returns `false` if and only if the series
is empty, one of the six required fields (timestamp, open, high, low, close,
volume) is missing, or some price field holds a non-positive value on some
candle; null values, OHLC-invariant violations and duplicate timestamps are
only reported as warnings and never change the `true` return value. -/
lemma colHasNonpos_iff (xs : List (Option ℚ)) :
    colHasNonpos xs = true ↔ ∃ v ∈ xs, ∃ q : ℚ, v = some q ∧ q ≤ 0 := by
  simp only [colHasNonpos, List.any_eq_true]
  constructor
  · rintro ⟨v, hv, hm⟩
    cases v with
    | none => simp at hm
    | some q => exact ⟨some q, hv, q, rfl, by simpa using hm⟩
  · rintro ⟨v, hv, q, rfl, hq⟩
    exact ⟨some q, hv, by simpa using hq⟩

lemma validate_data_fst (f : RawFrame) :
    (validate_data f).1 =
      (decide (¬ f.nrows = 0) &&
        (requiredColumns.all fun c => (getCol f c).isSome) &&
        !(priceColumns.any fun c => colHasNonpos ((getCol f c).getD []))) := by
  unfold validate_data
  split_ifs <;> simp_all

theorem c6_validate_iff (f : RawFrame) :
    (validate_data f).1 = false ↔
      (f.nrows = 0 ∨ (∃ c ∈ requiredColumns, getCol f c = none) ∨
        ∃ c ∈ priceColumns, ∃ v ∈ (getCol f c).getD [], ∃ q : ℚ, v = some q ∧ q ≤ 0) := by
  rw [validate_data_fst]
  constructor
  · intro h
    rcases Bool.and_eq_false_iff.mp h with h | h
    · rcases Bool.and_eq_false_iff.mp h with h | h
      · exact Or.inl (not_not.mp (decide_eq_false_iff_not.mp h))
      · obtain ⟨c, hc, hcs⟩ := List.all_eq_false.mp h
        refine Or.inr (Or.inl ⟨c, hc, ?_⟩)
        cases hg : getCol f c with
        | none => rfl
        | some col => rw [hg] at hcs; simp at hcs
    · have h2 : (priceColumns.any fun c => colHasNonpos ((getCol f c).getD [])) = true := by
        simpa using h
      obtain ⟨c, hc, hcol⟩ := List.any_eq_true.mp h2
      obtain ⟨v, hv, hq⟩ := (colHasNonpos_iff _).mp hcol
      exact Or.inr (Or.inr ⟨c, hc, v, hv, hq⟩)
  · rintro (h | ⟨c, hc, hnone⟩ | ⟨c, hc, v, hv, hq⟩)
    · simp [h]
    · have : (requiredColumns.all fun c => (getCol f c).isSome) = false :=
        List.all_eq_false.mpr ⟨c, hc, by simp [hnone]⟩
      simp [this]
    · have : (priceColumns.any fun c => colHasNonpos ((getCol f c).getD [])) = true :=
        List.any_eq_true.mpr ⟨c, hc, (colHasNonpos_iff _).mpr ⟨v, hv, hq⟩⟩
      simp [this]

lemma lookup_append {β : Type} (n : String) (l1 l2 : List (String × β)) :
    List.lookup n (l1 ++ l2) = (List.lookup n l1).or (List.lookup n l2) := by
  induction l1 with
  | nil => simp
  | cons p l ih =>
    by_cases h : n = p.1
    · simp [List.lookup, h, Option.or]
    · have hb : (n == p.1) = false := by simpa using h
      simp [List.lookup, hb, ih]

lemma any_key_of_lookup_none {β : Type} (l : List (String × β)) (n : String) :
    List.lookup n l = none → l.any (fun p => p.1 = n) = false := by
  induction l with
  | nil => intro _; rfl
  | cons p l ih =>
    intro h
    cases hb : (n == p.1) with
    | true => simp [List.lookup, hb] at h
    | false =>
      simp only [List.lookup, hb] at h
      have hne : (decide (p.1 = n)) = false := by
        rw [decide_eq_false_iff_not]
        intro he
        subst he
        simp at hb
      simp [List.any_cons, hne, ih h]

lemma setCol_fresh (df : Frame) (n : String) (c : Col)
    (h : List.lookup n df = none) : setCol df n c = df ++ [(n, c)] := by
  unfold setCol
  rw [any_key_of_lookup_none df n h]
  simp

lemma setCol_fold_fresh (news : List (String × Col)) :
    ∀ df : Frame,
      (∀ n ∈ news.map Prod.fst, List.lookup n df = none) →
      (news.map Prod.fst).Nodup →
      List.foldl (fun d p => setCol d p.1 p.2) df news = df ++ news := by
  induction news with
  | nil => intro df _ _; simp
  | cons p news ih =>
    intro df hf hn
    simp only [List.foldl_cons]
    have hp : List.lookup p.1 df = none := hf p.1 (by simp)
    rw [setCol_fresh df p.1 p.2 hp]
    have hf2 : ∀ n ∈ news.map Prod.fst, List.lookup n (df ++ [p]) = none := by
      intro n hnmem
      rw [lookup_append, hf n (by simp [hnmem])]
      have hne : (n == p.1) = false := by
        rw [beq_eq_false_iff_ne]
        intro he
        subst he
        exact (List.nodup_cons.mp hn).1 hnmem
      simp [List.lookup, hne, Option.or]
    rw [ih (df ++ [p]) hf2 (List.nodup_cons.mp hn).2, List.append_assoc]
    simp

/-- C8: on a frame with a float `close` column and none of the 11 indicator
names among its columns, `add_all_indicators` succeeds, appends exactly the
11 indicator columns on the right in order, and leaves every original
column — in particular every OHLCV field — unchanged. -/
theorem c8_add_all_indicators_frame (df : Frame) (cs : List Val)
    (hclose : List.lookup "close" df = some (Col.vcol cs))
    (hfresh : ∀ n ∈ indicatorNames, List.lookup n df = none) :
    ∃ out, add_all_indicators df = some out ∧
      out.map Prod.fst = df.map Prod.fst ++ indicatorNames ∧
      ∀ (n : String) (c0 : Col), List.lookup n df = some c0 →
        List.lookup n out = some c0 := by
  have hget : getClose df = some cs := by
    simp [getClose, hclose]
  refine ⟨df ++
    [("ema_12", Col.vcol (calculate_ema cs 12)),
     ("ema_26", Col.vcol (calculate_ema cs 26)),
     ("ema_50", Col.vcol (calculate_ema cs 50)),
     ("ema_200", Col.vcol (calculate_ema cs 200)),
     ("macd", Col.vcol (calculate_macd cs 12 26 9).1),
     ("macd_signal", Col.vcol (calculate_macd cs 12 26 9).2.1),
     ("macd_histogram", Col.vcol (calculate_macd cs 12 26 9).2.2),
     ("rsi", Col.vcol (calculate_rsi cs 14)),
     ("bb_upper", Col.rcol (calculate_bollinger_bands cs 20 2).1),
     ("bb_middle", Col.rcol (calculate_bollinger_bands cs 20 2).2.1),
     ("bb_lower", Col.rcol (calculate_bollinger_bands cs 20 2).2.2)], ?_, ?_, ?_⟩
  · have hfold := setCol_fold_fresh
      [("ema_12", Col.vcol (calculate_ema cs 12)),
       ("ema_26", Col.vcol (calculate_ema cs 26)),
       ("ema_50", Col.vcol (calculate_ema cs 50)),
       ("ema_200", Col.vcol (calculate_ema cs 200)),
       ("macd", Col.vcol (calculate_macd cs 12 26 9).1),
       ("macd_signal", Col.vcol (calculate_macd cs 12 26 9).2.1),
       ("macd_histogram", Col.vcol (calculate_macd cs 12 26 9).2.2),
       ("rsi", Col.vcol (calculate_rsi cs 14)),
       ("bb_upper", Col.rcol (calculate_bollinger_bands cs 20 2).1),
       ("bb_middle", Col.rcol (calculate_bollinger_bands cs 20 2).2.1),
       ("bb_lower", Col.rcol (calculate_bollinger_bands cs 20 2).2.2)] df
      (fun n hn => hfresh n hn)
      (by show (["ema_12", "ema_26", "ema_50", "ema_200", "macd", "macd_signal",
            "macd_histogram", "rsi", "bb_upper", "bb_middle", "bb_lower"] :
            List String).Nodup
          decide)
    calc add_all_indicators df
        = some (List.foldl (fun d p => setCol d p.1 p.2) df
            [("ema_12", Col.vcol (calculate_ema cs 12)),
             ("ema_26", Col.vcol (calculate_ema cs 26)),
             ("ema_50", Col.vcol (calculate_ema cs 50)),
             ("ema_200", Col.vcol (calculate_ema cs 200)),
             ("macd", Col.vcol (calculate_macd cs 12 26 9).1),
             ("macd_signal", Col.vcol (calculate_macd cs 12 26 9).2.1),
             ("macd_histogram", Col.vcol (calculate_macd cs 12 26 9).2.2),
             ("rsi", Col.vcol (calculate_rsi cs 14)),
             ("bb_upper", Col.rcol (calculate_bollinger_bands cs 20 2).1),
             ("bb_middle", Col.rcol (calculate_bollinger_bands cs 20 2).2.1),
             ("bb_lower", Col.rcol (calculate_bollinger_bands cs 20 2).2.2)]) := by
          simp only [add_all_indicators, hget, Option.map_some', List.foldl_cons,
            List.foldl_nil]
      _ = _ := by rw [hfold]
  · simp [List.map_append, indicatorNames]
  · intro n c0 h
    rw [lookup_append, h]
    rfl

/-- C8 witness: a one-column frame holding only a `close` series. -/
theorem c8_add_all_indicators_witness :
    (List.lookup "close" ([("close", Col.vcol [Val.fin 1])] : Frame) =
      some (Col.vcol [Val.fin 1])) ∧
    (∀ n ∈ indicatorNames,
      List.lookup n ([("close", Col.vcol [Val.fin 1])] : Frame) = none) ∧
    ∃ out, add_all_indicators [("close", Col.vcol [Val.fin 1])] = some out ∧
      out.map Prod.fst =
        ([("close", Col.vcol [Val.fin 1])] : Frame).map Prod.fst ++ indicatorNames ∧
      ∀ (n : String) (c0 : Col),
        List.lookup n ([("close", Col.vcol [Val.fin 1])] : Frame) = some c0 →
          List.lookup n out = some c0 := by
  have h1 : List.lookup "close" ([("close", Col.vcol [Val.fin 1])] : Frame) =
      some (Col.vcol [Val.fin 1]) := rfl
  have h2 : ∀ n ∈ indicatorNames,
      List.lookup n ([("close", Col.vcol [Val.fin 1])] : Frame) = none := by
    intro n hn
    simp only [indicatorNames, List.mem_cons, List.not_mem_nil, or_false] at hn
    rcases hn with rfl | rfl | rfl | rfl | rfl | rfl | rfl | rfl | rfl | rfl | rfl <;> rfl
  exact ⟨h1, h2, c8_add_all_indicators_frame _ _ h1 h2⟩

end CryptoPipeline
